import Mathlib

/-!
Verification of the task-execution control loop of the android-vision-agent
repository.  The definitions below are a shallow embedding of the Python
sources:

* `android_ai_agent.py` — `SimpleAndroidAgent.run_task` (main loop, lines
  819–917), `SimpleAndroidAgent._get_action_key` (lines 919–949), the search
  term extraction in `run_task` (lines 766–777), the numeric normalisation at
  the end of `SimpleAndroidAgent.determine_action` (lines 1338–1351) and the
  `type` branch of `SimpleAndroidAgent.execute_action` (lines 1387–1408).
* `simple_android_vision_agent.py` — `AndroidVisionAgent.run_vision_guided_stage`
  (lines 401–473).

Python floats are modelled as exact rationals, Python strings as Lean strings
(`str.lower` is modelled per character by `Char.toLower`, which agrees on the
ASCII input the agent manipulates).
The LLM planner, the screenshot capture and the device are external
collaborators; a run is therefore parameterised by an environment function
giving, for each iteration, the outcome of capture and the planner's proposal.
-/

namespace AndroidAgent

/-! ### Python string primitives used by the agent -/

/-- Python whitespace characters recognised by `str.strip()` / `str.split()`. -/
def isPyWs (c : Char) : Bool :=
  c = ' ' || c = '\t' || c = '\n' || c = '\r' || c = '\x0b' || c = '\x0c'

/-- Python `str.strip()` (no argument): drop leading and trailing whitespace. -/
def pyStrip (s : String) : String :=
  ⟨((s.data.dropWhile isPyWs).reverse.dropWhile isPyWs).reverse⟩

/-- Python `needle in haystack` on character lists (substring containment). -/
def listHasInfix (needle : List Char) : List Char → Bool
  | [] => needle.isEmpty
  | c :: rest => needle.isPrefixOf (c :: rest) || listHasInfix needle rest

/-- Python `needle in haystack` for strings. -/
def strContains (haystack needle : String) : Bool :=
  listHasInfix needle.data haystack.data

/-- Helper for `pyWords`: accumulate the current (reversed) word. -/
def pyWordsAux : List Char → List Char → List (List Char)
  | [], cur => if cur.isEmpty then [] else [cur.reverse]
  | c :: rest, cur =>
    if isPyWs c then
      if cur.isEmpty then pyWordsAux rest [] else cur.reverse :: pyWordsAux rest []
    else pyWordsAux rest (c :: cur)

/-- Python `str.split()` (no argument): maximal runs of non-whitespace. -/
def pyWords (s : String) : List (List Char) :=
  pyWordsAux s.data []

/-- Floor of a rational, in a form the kernel can evaluate. -/
def ratFloor (q : ℚ) : ℤ :=
  Int.fdiv q.num q.den

/-- Fuel-driven worker for `pySplit`: the fuel is the length of the
remaining input (so it never runs out) and the second counter skips over
the tail of a separator that was just matched. -/
def pySplitFuel (needle : List Char) : ℕ → ℕ → List Char → List Char → List (List Char)
  | 0, _, rest, acc => [acc.reverse ++ rest]
  | _ + 1, _, [], acc => [acc.reverse]
  | fuel + 1, skip + 1, _ :: rest, acc => pySplitFuel needle fuel skip rest acc
  | fuel + 1, 0, c :: rest, acc =>
    if needle.isPrefixOf (c :: rest) then
      acc.reverse :: pySplitFuel needle fuel (needle.length - 1) rest []
    else pySplitFuel needle fuel 0 rest (c :: acc)

/-- Python `str.split(sep)` for a nonempty separator: non-overlapping,
left-to-right, empty pieces kept. -/
def pySplit (s : String) (needle : String) : List String :=
  (pySplitFuel needle.data s.data.length 0 s.data []).map fun l => ⟨l⟩

/-- Python `str.lower()` (ASCII case mapping, which covers every string the
agent manipulates). -/
def pyLower (s : String) : String :=
  ⟨s.data.map Char.toLower⟩

/-- Python `str.replace(" ", "%s")`, as used for `adb shell input text`. -/
def replaceSpaces : List Char → List Char
  | [] => []
  | c :: rest => if c = ' ' then '%' :: 's' :: replaceSpaces rest else c :: replaceSpaces rest

/-- Python 3 `round` on an exact rational: round half to even. -/
def pyRound (q : ℚ) : ℤ :=
  if q - ratFloor q < 1/2 then ratFloor q
  else if 1/2 < q - ratFloor q then ratFloor q + 1
  else if ratFloor q % 2 = 0 then ratFloor q else ratFloor q + 1

/-! ### The action record

`determine_action` returns a JSON object; the loop reads the keys
`action`, `x_percent`, `y_percent`, `text`, `direction`, `wait_time`,
`is_task_complete` and `analysis`.  A missing `analysis` key is modelled by
`none` (the loop reads it with default `"Task completed"`); a missing
`is_task_complete` key is equivalent to `false` since the loop reads it with
default `False`. -/

structure Action where
  kind : String
  x_percent : ℚ
  y_percent : ℚ
  text : String
  direction : String
  wait_time : ℚ
  is_task_complete : Bool
  analysis : Option String
deriving Repr, DecidableEq

/-- A tap proposal, all other fields at the planner's defaults. -/
def mkTap (x y : ℚ) (complete : Bool) (analysis : Option String) : Action :=
  { kind := "tap", x_percent := x, y_percent := y, text := "", direction := "",
    wait_time := 1, is_task_complete := complete, analysis := analysis }

/-- A type proposal. -/
def mkType (t : String) (complete : Bool) (analysis : Option String) : Action :=
  { kind := "type", x_percent := 0, y_percent := 0, text := t, direction := "",
    wait_time := 1, is_task_complete := complete, analysis := analysis }

/-- A scroll proposal. -/
def mkScroll (dir : String) (complete : Bool) (analysis : Option String) : Action :=
  { kind := "scroll", x_percent := 0, y_percent := 0, text := "", direction := dir,
    wait_time := 1, is_task_complete := complete, analysis := analysis }

/-- A wait proposal. -/
def mkWait (t : ℚ) (complete : Bool) (analysis : Option String) : Action :=
  { kind := "wait", x_percent := 0, y_percent := 0, text := "", direction := "",
    wait_time := t, is_task_complete := complete, analysis := analysis }

/-- A done proposal (the planner's way to signal completion). -/
def mkDone (analysis : Option String) : Action :=
  { kind := "done", x_percent := 0, y_percent := 0, text := "", direction := "",
    wait_time := 1, is_task_complete := true, analysis := analysis }

/-! ### `SimpleAndroidAgent._get_action_key` (android_ai_agent.py 919–949) -/

/-- The function `_get_action_key`: the coarse repetition fingerprint of an action.
For `tap` the percentages are rounded to the nearest multiple of 5 with
Python's `round`; for `type` the text is lowercased and stripped; for
`scroll` the direction is appended; every `wait` maps to `"wait"`; any other
kind is its own key.  (In the source the coordinates are re-read with
`float(...)` and default to `0` on failure; the record already stores the
parsed numbers.) -/
def getActionKey (a : Action) : String :=
  if a.kind = "tap" then
    "tap_" ++ toString (pyRound (a.x_percent / 5) * 5) ++ "_"
      ++ toString (pyRound (a.y_percent / 5) * 5)
  else if a.kind = "type" then
    "type_" ++ pyStrip (pyLower a.text)
  else if a.kind = "scroll" then
    "scroll_" ++ a.direction
  else if a.kind = "wait" then
    "wait"
  else a.kind

/-! ### Loop-breaking substitution (android_ai_agent.py 860–889) -/

/-- The replacement dict installed when `same_action_count >= 3`:
a repeated `type` becomes a `tap` at (90, 90), a repeated `tap` becomes a
`scroll` down; there is no branch for any other kind, which is left
unchanged. -/
def substitute (a : Action) : Action :=
  if a.kind = "type" then
    { kind := "tap", x_percent := 90, y_percent := 90, text := "", direction := "",
      wait_time := 1, is_task_complete := false,
      analysis := some "Breaking out of typing loop by tapping search/enter button" }
  else if a.kind = "tap" then
    { kind := "scroll", x_percent := 0, y_percent := 0, text := "", direction := "down",
      wait_time := 1, is_task_complete := false,
      analysis := some "Breaking out of tapping loop by scrolling" }
  else a

/-! ### One iteration of the repetition logic (android_ai_agent.py 856–894) -/

/-- Result of the repetition bookkeeping for one proposal: the action that
will be executed, the updated `recent_actions` list and the updated
`same_action_count`. -/
def processProposal (recent : List String) (count : ℕ) (a : Action) :
    Action × List String × ℕ :=
  let key := getActionKey a
  -- `recent_actions.append(action_key)` followed by a single
  -- `if len(recent_actions) > 3: recent_actions.pop(0)`
  let appended := recent ++ [key]
  let recent' := if appended.length > 3 then appended.drop 1 else appended
  if recent.getLast? = some key then
    let c := count + 1
    if c ≥ 3 then (substitute a, recent', 0)
    else (a, recent', c)
  else (a, recent', 0)

/-! ### The main loop of `run_task` (android_ai_agent.py 819–917)

Each iteration takes a screenshot and asks the planner for an action; both
are external, so the environment `env : ℕ → Option Action` gives for
iteration `i` either `none` (screenshot capture returned a falsy path, upon
which `run_task` returns `"Failed to capture screen"`) or `some a` (the plan
returned by `determine_action`; that call catches all its own exceptions and
always returns a dict). -/

/-- Source: `max_steps = 20  # Prevent infinite loops` -/
def maxSteps : ℕ := 20

/-- The `result` string set when the step budget is exhausted. -/
def exhaustedMsg : String := "Task not completed within the maximum number of steps"

/-- Mutable state of the `while` loop. -/
structure LoopState where
  recentActions : List String
  sameActionCount : ℕ
  stepsTaken : ℕ
  taskComplete : Bool
  result : String
deriving Repr, DecidableEq

/-- Outcome of `run_task`'s main loop: the actions dispatched to
`execute_action` in order, the returned string, and the number of completed
iterations. -/
structure RunOutcome where
  trace : List Action
  retval : String
  iterations : ℕ
deriving Repr, DecidableEq

/-- The body of `while steps_taken < max_steps and not task_complete`.
The fuel argument only bounds the recursion; `run_task` supplies
`maxSteps` so that the fuel never runs out before the `while` condition
fails. -/
def runLoopAux (env : ℕ → Option Action) : ℕ → LoopState → RunOutcome
  | 0, st => { trace := [], retval := st.result, iterations := st.stepsTaken }
  | fuel + 1, st =>
    if st.stepsTaken < maxSteps ∧ st.taskComplete = false then
      match env st.stepsTaken with
      | none =>
        -- `if not screenshot_path: return "Failed to capture screen"`
        { trace := [], retval := "Failed to capture screen", iterations := st.stepsTaken }
      | some a =>
        let p := processProposal st.recentActions st.sameActionCount a
        let act := p.1
        -- `success = await self.execute_action(action)` (dispatch recorded in
        -- the trace), then `task_complete = action.get("is_task_complete", False)`
        let tc := act.is_task_complete
        let res1 := if tc then act.analysis.getD "Task completed" else st.result
        let steps' := st.stepsTaken + 1
        let res2 := if steps' ≥ maxSteps then exhaustedMsg else res1
        let out := runLoopAux env fuel
          { recentActions := p.2.1, sameActionCount := p.2.2, stepsTaken := steps',
            taskComplete := tc, result := res2 }
        { trace := act :: out.trace, retval := out.retval, iterations := out.iterations }
    else { trace := [], retval := st.result, iterations := st.stepsTaken }

/-- The main loop of `SimpleAndroidAgent.run_task`, starting from the reset
state (`recent_actions = []`, `same_action_count = 0`, `steps_taken = 0`,
`task_complete = False`, `result = ""`). -/
def run_task (env : ℕ → Option Action) : RunOutcome :=
  runLoopAux env maxSteps
    { recentActions := [], sameActionCount := 0, stepsTaken := 0,
      taskComplete := false, result := "" }

/-! ### Basic facts about `ratFloor` and `pyRound` -/

theorem ratFloor_eq_floor (q : ℚ) : ratFloor q = ⌊q⌋ := by
  rw [Rat.floor_def]
  exact Int.fdiv_eq_ediv _ (Int.natCast_nonneg _)

/-- The rounding `pyRound` agrees with the nearest integer whenever the argument is within
`2/5` of that integer (in particular ties never occur there). -/
theorem pyRound_eq_of_close (m : ℤ) (q : ℚ) (h : |q - m| ≤ 2/5) : pyRound q = m := by
  rw [abs_le] at h
  rcases le_or_lt (m : ℚ) q with hq | hq
  · have hfl : ⌊q⌋ = m := by
      rw [Int.floor_eq_iff]
      constructor
      · exact_mod_cast hq
      · linarith [h.2]
    unfold pyRound
    rw [ratFloor_eq_floor, hfl]
    rw [if_pos]
    linarith [h.2]
  · have hfl : ⌊q⌋ = m - 1 := by
      rw [Int.floor_eq_iff]
      constructor
      · push_cast
        linarith [h.1]
      · push_cast
        linarith [hq]
    unfold pyRound
    rw [ratFloor_eq_floor, hfl]
    rw [if_neg, if_pos]
    · omega
    · push_cast
      linarith [h.1]
    · push_cast
      linarith [h.1]

example : pyRound (2 : ℚ) = 2 := by
  apply pyRound_eq_of_close
  norm_num

example : pyRound ((13 : ℚ)/5) = 3 := by
  apply pyRound_eq_of_close
  rw [abs_le]
  constructor <;> norm_num

example :
    (run_task (fun _ => some (mkType "pizza" true (some "typed")))).retval = "typed" := by
  rfl

example :
    (run_task (fun _ => some (mkType "pizza" true (some "typed")))).iterations = 1 := by
  rfl

/-! ### Search-task detection (android_ai_agent.py 766–777)

```
if "search" in task.lower():
    search_parts = task.lower().split("search")
    if len(search_parts) > 1:
        search_term = search_parts[1].strip()
        for word in ["for", "about", "the", "a"]:
            if search_term.startswith(word + " "):
                search_term = search_term[len(word):].strip()
        is_search_task = bool(search_term)
```
-/

/-- One pass of the filler-word removal: drop `word` when
`search_term.startswith(word + " ")`, then strip. -/
def stripFillerStep (t : String) (word : String) : String :=
  if (word ++ " ").data.isPrefixOf t.data then pyStrip ⟨t.data.drop word.length⟩ else t

/-- The loop over `["for", "about", "the", "a"]` (in this order, each word
tried once against the current value). -/
def stripFillers (t : String) : String :=
  (["for", "about", "the", "a"]).foldl stripFillerStep t

/-- The search term extracted by `run_task`; `none` when the task is not
detected as a search task (`is_search_task = False`). -/
def extractSearchTerm (task : String) : Option String :=
  if strContains (pyLower task) "search" then
    let parts := pySplit (pyLower task) "search"
    if parts.length > 1 then
      let t := stripFillers (pyStrip (parts.getD 1 ""))
      if t = "" then none else some t
    else none
  else none

example : extractSearchTerm "Search for pizza" = some "pizza" := by rfl
example : extractSearchTerm "open settings" = none := by rfl
example : extractSearchTerm "search for the pizza" = some "pizza" := by rfl

/-! ### Numeric normalisation in `determine_action` (android_ai_agent.py 1338–1351)

```
if action_plan.get("action") == "tap":
    try:
        action_plan["x_percent"] = float(action_plan.get("x_percent", 50))
        action_plan["y_percent"] = float(action_plan.get("y_percent", 50))
    except (ValueError, TypeError):
        action_plan["x_percent"] = 50
        action_plan["y_percent"] = 50
elif action_plan.get("action") == "wait":
    try:
        action_plan["wait_time"] = float(action_plan.get("wait_time", 2))
    except (ValueError, TypeError):
        action_plan["wait_time"] = 2
```

A raw JSON field is either a value `float(...)` accepts (a number, or a
numeric string — modelled by the rational it denotes), a value on which
`float(...)` raises `ValueError`/`TypeError`, or absent. -/

inductive RawVal where
  | parseable (q : ℚ)
  | unparseable
  | missing
deriving Repr, DecidableEq

/-- Semantics of `float(d.get(key, default))`: a missing key takes the integer default,
which `float` converts without error. -/
def pyFloatGet (v : RawVal) (default : ℚ) : Option ℚ :=
  match v with
  | .parseable q => some q
  | .unparseable => none
  | .missing => some default

/-- The tap branch: both coordinates are set to 50 when either
conversion raises. -/
def normalizeTap (xr yr : RawVal) : ℚ × ℚ :=
  match pyFloatGet xr 50, pyFloatGet yr 50 with
  | some x, some y => (x, y)
  | _, _ => (50, 50)

/-- The wait branch. -/
def normalizeWait (wr : RawVal) : ℚ :=
  match pyFloatGet wr 2 with
  | some w => w
  | none => 2

/-! ### The `type` branch of `execute_action` (android_ai_agent.py 1387–1408)

After `input text`, if the text looks like a search
(`any(term in text.lower() for term in ["search", "find", "look"]) or
len(text.split()) <= 3`) the executor also taps at
`int(width * 0.9), int(height * 0.9)` (exact-arithmetic model of the float
product: `9 * w / 10` with natural division). -/

inductive DeviceCmd where
  | inputText (s : String)
  | tap (x y : ℕ)
deriving Repr, DecidableEq

/-- Source condition: `any(term in text.lower() for term in ["search", "find", "look"]) or
len(text.split()) <= 3` -/
def looksLikeSearch (text : String) : Bool :=
  (strContains (pyLower text) "search" || strContains (pyLower text) "find" ||
    strContains (pyLower text) "look") || (pyWords text).length ≤ 3

/-- The device commands issued by the `type` branch for screen dimensions
`width`, `height`: the text (spaces replaced by `%s`), then the extra
enter/search tap when `looksLikeSearch`. -/
def executeType (width height : ℕ) (text : String) : List DeviceCmd :=
  let base := [DeviceCmd.inputText ⟨replaceSpaces text.data⟩]
  if looksLikeSearch text then
    base ++ [DeviceCmd.tap (9 * width / 10) (9 * height / 10)]
  else base

example :
    executeType 1080 1920 "pizza" =
      [.inputText "pizza", .tap 972 1728] := by rfl
example :
    executeType 1080 1920 "this has more than three words entirely" =
      [.inputText "this%shas%smore%sthan%sthree%swords%sentirely"] := by rfl

/-! ### `run_vision_guided_stage` (simple_android_vision_agent.py 401–473)

The loop takes up to `max_steps = 15` iterations; a failed screenshot or a
failed analysis appends an error entry and increments `consecutive_errors`,
aborting once it reaches `max_consecutive_errors = 3`; a successful
execution resets the counter; `is_task_complete` breaks the loop.  The
screenshot, the LLM analysis and the executed action's result string are
external, so iteration `i` draws from `env i`.  (The generic
`except` path of the source cannot be triggered in this model, since the
collaborators' failures are already represented by the first two cases.) -/

inductive VisionStep where
  | captureFail
  | analyzeFail
  | act (complete : Bool) (execMsg : String)
deriving Repr, DecidableEq

/-- Abort entry appended when `consecutive_errors >= max_consecutive_errors`. -/
def abortMsg : String := "Too many consecutive errors. Aborting task."

/-- Entry appended when the loop ends with `steps_taken >= max_steps`. -/
def visionMaxMsg : String := "Maximum steps reached, task may be incomplete"

/-- The `while steps_taken < max_steps` body; returns
`(steps_taken, results)`. -/
def visionAux (env : ℕ → VisionStep) : ℕ → ℕ → ℕ → List String → ℕ × List String
  | 0, steps, _, acc => (steps, acc)
  | fuel + 1, steps, errs, acc =>
    if steps < 15 then
      match env steps with
      | .captureFail =>
        let acc' := acc ++ ["Failed to take screenshot"]
        if errs + 1 ≥ 3 then (steps + 1, acc' ++ [abortMsg])
        else visionAux env fuel (steps + 1) (errs + 1) acc'
      | .analyzeFail =>
        let acc' := acc ++ ["Failed to analyze screenshot"]
        if errs + 1 ≥ 3 then (steps + 1, acc' ++ [abortMsg])
        else visionAux env fuel (steps + 1) (errs + 1) acc'
      | .act complete msg =>
        let acc' := acc ++ [msg]
        if complete then (steps + 1, acc')
        else visionAux env fuel (steps + 1) 0 acc'
    else (steps, acc)

/-- The function `run_vision_guided_stage`: run the loop from the initial state and
append the max-steps entry when the budget was exhausted. -/
def run_vision_guided_stage (env : ℕ → VisionStep) : ℕ × List String :=
  let r := visionAux env 15 0 0 []
  if r.1 ≥ 15 then (r.1, r.2 ++ [visionMaxMsg]) else r

example :
    run_vision_guided_stage (fun _ => .captureFail) =
      (3, ["Failed to take screenshot", "Failed to take screenshot",
           "Failed to take screenshot", abortMsg]) := by rfl

example :
    run_vision_guided_stage
      (fun n => if n = 0 then .captureFail else .act true "Clicked at (10, 20)") =
      (2, ["Failed to take screenshot", "Clicked at (10, 20)"]) := by rfl

/-! ### General lemmas about the main loop -/

/-- Once `task_complete` holds, the `while` condition fails and the loop
returns immediately. -/
theorem runLoopAux_of_complete (env : ℕ → Option Action) (fuel : ℕ) (st : LoopState)
    (h : st.taskComplete = true) :
    runLoopAux env fuel st =
      { trace := [], retval := st.result, iterations := st.stepsTaken } := by
  cases fuel with
  | zero => rfl
  | succ n =>
    unfold runLoopAux
    rw [if_neg (by simp [h])]

/-- The loop performs at most `fuel` further iterations and dispatches at
most `fuel` further actions. -/
theorem runLoopAux_bounded (env : ℕ → Option Action) (fuel : ℕ) (st : LoopState) :
    (runLoopAux env fuel st).iterations ≤ st.stepsTaken + fuel ∧
      (runLoopAux env fuel st).trace.length ≤ fuel := by
  induction fuel generalizing st with
  | zero => simp [runLoopAux]
  | succ n ih =>
    unfold runLoopAux
    by_cases hc : st.stepsTaken < maxSteps ∧ st.taskComplete = false
    · rw [if_pos hc]
      cases henv : env st.stepsTaken with
      | none => simp
      | some a =>
        have h := ih { recentActions := (processProposal st.recentActions st.sameActionCount a).2.1,
                       sameActionCount := (processProposal st.recentActions st.sameActionCount a).2.2,
                       stepsTaken := st.stepsTaken + 1,
                       taskComplete := (processProposal st.recentActions st.sameActionCount a).1.is_task_complete,
                       result := if st.stepsTaken + 1 ≥ maxSteps then exhaustedMsg
                         else if (processProposal st.recentActions st.sameActionCount a).1.is_task_complete then
                           (processProposal st.recentActions st.sameActionCount a).1.analysis.getD "Task completed"
                         else st.result }

        constructor
        · simpa [Nat.add_comm, Nat.add_assoc, Nat.add_left_comm] using h.1
        · simpa [Nat.succ_le_succ_iff] using h.2
    · rw [if_neg hc]
      simp

/-- Classification of the value returned by the loop: a capture failure
message, the step-budget message, or the completing action's summary. -/
theorem runLoopAux_retval (env : ℕ → Option Action) (fuel : ℕ) (st : LoopState)
    (hfc : st.stepsTaken + fuel = maxSteps) (hc : st.taskComplete = false)
    (hf : fuel ≠ 0) :
    (runLoopAux env fuel st).retval = "Failed to capture screen" ∨
      (runLoopAux env fuel st).retval = exhaustedMsg ∨
      ∃ a ∈ (runLoopAux env fuel st).trace, a.is_task_complete = true ∧
        (runLoopAux env fuel st).retval = a.analysis.getD "Task completed" := by
  induction fuel generalizing st with
  | zero => exact absurd rfl hf
  | succ n ih =>
    have hlt : st.stepsTaken < maxSteps := by omega
    unfold runLoopAux
    rw [if_pos ⟨hlt, hc⟩]
    cases henv : env st.stepsTaken with
    | none => left; rfl
    | some a =>
      simp only []
      set p := processProposal st.recentActions st.sameActionCount a with hp
      set act := p.1 with hact
      by_cases hn : n = 0
      · subst hn
        have hge : st.stepsTaken + 1 ≥ maxSteps := by omega
        right; left
        simp [runLoopAux, if_pos hge]
      · have hge : ¬ st.stepsTaken + 1 ≥ maxSteps := by omega
        rw [if_neg hge]
        cases htc : act.is_task_complete with
        | true =>
          rw [if_pos rfl]
          rw [runLoopAux_of_complete env n _ (by simp)]
          right; right
          exact ⟨act, by simp, htc, rfl⟩
        | false =>
          rw [if_neg (by simp)]
          have h := ih { recentActions := p.2.1, sameActionCount := p.2.2,
                         stepsTaken := st.stepsTaken + 1, taskComplete := act.is_task_complete,
                         result := st.result }
            (by simpa using by omega) (by simpa using htc) hn
          rcases h with h | h | ⟨b, hb, hbc, hbr⟩
          · left
            simpa [htc] using h
          · right; left
            simpa [htc] using h
          · right; right
            refine ⟨b, ?_, hbc, ?_⟩
            · simp only [htc] at hb ⊢
              exact List.mem_cons_of_mem _ hb
            · simpa [htc] using hbr

/-- One unfolding of the loop body. -/
theorem runLoopAux_step (env : ℕ → Option Action) (fuel : ℕ) (st : LoopState) :
    runLoopAux env (fuel + 1) st =
      if st.stepsTaken < maxSteps ∧ st.taskComplete = false then
        match env st.stepsTaken with
        | none =>
          { trace := [], retval := "Failed to capture screen", iterations := st.stepsTaken }
        | some a =>
          let p := processProposal st.recentActions st.sameActionCount a
          let act := p.1
          let tc := act.is_task_complete
          let res1 := if tc then act.analysis.getD "Task completed" else st.result
          let steps' := st.stepsTaken + 1
          let res2 := if steps' ≥ maxSteps then exhaustedMsg else res1
          let out := runLoopAux env fuel
            { recentActions := p.2.1, sameActionCount := p.2.2, stepsTaken := steps',
              taskComplete := tc, result := res2 }
          { trace := act :: out.trace, retval := out.retval, iterations := out.iterations }
      else { trace := [], retval := st.result, iterations := st.stepsTaken } := rfl

/-- On the first iteration `recent_actions` is empty, so the proposal is
never substituted; if it carries `is_task_complete`, the loop executes it,
then stops with its summary. -/
theorem runTask_first_complete (env : ℕ → Option Action) (a : Action)
    (h0 : env 0 = some a) (hc : a.is_task_complete = true) :
    run_task env =
      { trace := [a], retval := a.analysis.getD "Task completed", iterations := 1 } := by
  unfold run_task
  rw [show (maxSteps : ℕ) = 19 + 1 from rfl, runLoopAux_step]
  rw [if_pos (by exact ⟨by decide, rfl⟩)]
  simp only [h0]
  have hpp : processProposal [] 0 a = (a, [getActionKey a], 0) := by
    simp [processProposal]
  simp only [hpp, hc]
  rw [runLoopAux_of_complete env _ _ rfl]
  simp [maxSteps]

/-- C1: for every environment, `run_task`'s main loop performs at most
`max_steps = 20` iterations, dispatches at most 20 actions, and returns one
of the terminal result strings (capture failure, budget exhaustion, or the
completing plan's summary). -/
theorem runTask_bounded_and_terminal (env : ℕ → Option Action) :
    (run_task env).iterations ≤ maxSteps ∧ (run_task env).trace.length ≤ maxSteps ∧
      ((run_task env).retval = "Failed to capture screen" ∨
        (run_task env).retval = exhaustedMsg ∨
        ∃ a ∈ (run_task env).trace, a.is_task_complete = true ∧
          (run_task env).retval = a.analysis.getD "Task completed") := by
  refine ⟨?_, ?_, ?_⟩
  · simpa using (runLoopAux_bounded env maxSteps _).1
  · exact (runLoopAux_bounded env maxSteps _).2
  · exact runLoopAux_retval env maxSteps _ rfl rfl (by decide)

/-! ### Claim C2: repetition threshold -/

/-- C2 (amended): a proposal whose key matches the immediately preceding
recorded key on the third consecutive occasion (`same_action_count` reaching
3) is replaced by `substitute` — which changes the action only for the
`type` and `tap` kinds — and the counter is reset to 0; below the threshold
the counter increments; a non-matching key resets it to 0. -/
theorem processProposal_threshold (recent : List String) (count : ℕ) (a : Action) :
    (recent.getLast? = some (getActionKey a) → 2 ≤ count →
      (processProposal recent count a).1 = substitute a ∧
        (processProposal recent count a).2.2 = 0) ∧
    (recent.getLast? = some (getActionKey a) → count < 2 →
      (processProposal recent count a).1 = a ∧
        (processProposal recent count a).2.2 = count + 1) ∧
    (¬ recent.getLast? = some (getActionKey a) →
      (processProposal recent count a).1 = a ∧
        (processProposal recent count a).2.2 = 0) := by
  simp only [processProposal]
  by_cases h : recent.getLast? = some (getActionKey a)
  · refine ⟨fun _ h2 => ?_, fun _ hlt => ?_, fun hn => absurd h hn⟩
    · rw [if_pos h, if_pos (by omega : count + 1 ≥ 3)]
      exact ⟨rfl, rfl⟩
    · rw [if_pos h, if_neg (by omega : ¬ count + 1 ≥ 3)]
      exact ⟨rfl, rfl⟩
  · refine ⟨fun hh => absurd hh h, fun hh => absurd hh h, fun _ => ?_⟩
    rw [if_neg h]
    exact ⟨rfl, rfl⟩

/-- Witness for C2 at a concrete threshold crossing. -/
theorem processProposal_threshold_witness :
    (processProposal ["scroll_down"] 2 (mkScroll "down" false none)).1 =
        substitute (mkScroll "down" false none) ∧
      (processProposal ["scroll_down"] 2 (mkScroll "down" false none)).2.2 = 0 :=
  (processProposal_threshold ["scroll_down"] 2 (mkScroll "down" false none)).1 rfl
    (by decide)

/-- C2 counterexample: with a `scroll` proposed every iteration the
threshold is crossed repeatedly (at iterations 4, 7, 10, …), yet the
dispatched action never changes kind — every one of the 20 executed actions
is still a `scroll`, refuting "substitutes an action of a different kind". -/
theorem repetition_scroll_unsubstituted_cex :
    ((run_task (fun _ => some (mkScroll "down" false none))).trace.map Action.kind) =
        List.replicate 20 "scroll" ∧
      (run_task (fun _ => some (mkScroll "down" false none))).retval = exhaustedMsg := by
  exact ⟨rfl, rfl⟩

/-! ### Claim C3: the break substitutes -/

/-- C3 (amended): when the threshold is crossed, a repeated `type` is
replaced by a `tap` at (90, 90), a repeated `tap` is replaced by a `scroll`
down; every other repeated kind is left unchanged (there is no `home`
substitute and no tap-at-screen-center substitute). -/
theorem substitute_break_rules (a : Action) :
    (a.kind = "type" → substitute a =
      { kind := "tap", x_percent := 90, y_percent := 90, text := "", direction := "",
        wait_time := 1, is_task_complete := false,
        analysis := some "Breaking out of typing loop by tapping search/enter button" }) ∧
    (a.kind = "tap" → substitute a =
      { kind := "scroll", x_percent := 0, y_percent := 0, text := "", direction := "down",
        wait_time := 1, is_task_complete := false,
        analysis := some "Breaking out of tapping loop by scrolling" }) ∧
    (a.kind ≠ "type" → a.kind ≠ "tap" → substitute a = a) := by
  refine ⟨fun h => ?_, fun h => ?_, fun h1 h2 => ?_⟩
  · simp [substitute, h]
  · simp [substitute, h]
  · simp [substitute, h1, h2]

/-- Witness for C3 on a `type` action and on a `wait` action. -/
theorem substitute_break_rules_witness :
    substitute (mkType "pizza" false none) =
      { kind := "tap", x_percent := 90, y_percent := 90, text := "", direction := "",
        wait_time := 1, is_task_complete := false,
        analysis := some "Breaking out of typing loop by tapping search/enter button" } ∧
    substitute (mkWait 1 false none) = mkWait 1 false none :=
  ⟨(substitute_break_rules (mkType "pizza" false none)).1 rfl,
   (substitute_break_rules (mkWait 1 false none)).2.2 (by decide) (by decide)⟩

/-- C3 counterexample: a repeated `wait` is never replaced by `home` — all
20 dispatched actions keep the kind `wait`. -/
theorem repeated_wait_unchanged_cex :
    ((run_task (fun _ => some (mkWait 1 false none))).trace.map Action.kind) =
      List.replicate 20 "wait" := by
  rfl

/-! ### Claim C4: completion and dispatch order -/

/-- C4 (amended): a plan carrying `is_task_complete` is still dispatched to
the executor; only afterwards does the loop read the flag and stop,
returning the plan's summary, with no further iterations. -/
theorem complete_plan_still_dispatched (env : ℕ → Option Action) (a : Action)
    (h0 : env 0 = some a) (hc : a.is_task_complete = true) :
    (run_task env).trace = [a] ∧
      (run_task env).retval = a.analysis.getD "Task completed" ∧
      (run_task env).iterations = 1 := by
  rw [runTask_first_complete env a h0 hc]
  exact ⟨rfl, rfl, rfl⟩

/-- Witness for C4. -/
theorem complete_plan_still_dispatched_witness :
    (run_task (fun _ => some (mkScroll "up" true (some "scrolled")))).trace =
        [mkScroll "up" true (some "scrolled")] ∧
      (run_task (fun _ => some (mkScroll "up" true (some "scrolled")))).retval =
        "scrolled" ∧
      (run_task (fun _ => some (mkScroll "up" true (some "scrolled")))).iterations = 1 :=
  complete_plan_still_dispatched _ _ rfl rfl

/-- C4 counterexample: a plan with `is_task_complete = true` on iteration 1
is dispatched to the executor (the trace is nonempty, containing exactly
that plan) before the run returns — refuting "without dispatching that
ActionPlan to the Action Executor". -/
theorem complete_plan_dispatch_cex :
    (run_task (fun _ => some (mkDone (some "all finished")))).trace =
        [mkDone (some "all finished")] ∧
      (run_task (fun _ => some (mkDone (some "all finished")))).retval =
        "all finished" ∧
      (run_task (fun _ => some (mkDone (some "all finished")))).iterations = 1 := by
  exact ⟨rfl, rfl, rfl⟩

/-! ### Claim C5: no search override for `type` plans -/

/-- C5 (amended): the main loop applies no search-specific completion
override — it does not read the task text at all.  A `type` plan carrying
`is_task_complete = true` ends the run as completed on the spot, whatever
the task was. -/
theorem type_plan_completion_accepted (env : ℕ → Option Action) (t s : String)
    (h0 : env 0 = some (mkType t true (some s))) :
    (run_task env).retval = s ∧ (run_task env).iterations = 1 ∧
      ((run_task env).trace.map Action.kind) = ["type"] := by
  rw [runTask_first_complete env _ h0 rfl]
  exact ⟨rfl, rfl, rfl⟩

/-- Witness for C5. -/
theorem type_plan_completion_accepted_witness :
    (run_task (fun _ => some (mkType "mcdonalds" true (some "typed it")))).retval =
        "typed it" ∧
      (run_task (fun _ => some (mkType "mcdonalds" true (some "typed it")))).iterations =
        1 ∧
      ((run_task (fun _ => some (mkType "mcdonalds" true (some "typed it")))).trace.map
        Action.kind) = ["type"] :=
  type_plan_completion_accepted _ "mcdonalds" "typed it" rfl

/-- C5 counterexample: "search for pizza" is detected as a search task
(query "pizza"), yet a `type` plan with `is_task_complete = true` completes
the run on iteration 1 — the flag is not forced to false. -/
theorem search_type_completion_cex :
    extractSearchTerm "search for pizza" = some "pizza" ∧
      (run_task (fun _ => some (mkType "pizza" true (some "typed pizza")))).retval =
        "typed pizza" ∧
      (run_task (fun _ => some (mkType "pizza" true (some "typed pizza")))).iterations =
        1 ∧
      ((run_task (fun _ => some (mkType "pizza" true (some "typed pizza")))).trace.map
        Action.kind) = ["type"] := by
  exact ⟨rfl, rfl, rfl, rfl⟩

/-! ### Claim C6: query extraction and screen verification -/

/-- C6 (amended): the query is extracted as the piece of the lowercased task
after the first "search" token, stripped of the leading filler words
"for" / "about" / "the" / "a" — but no screen-content verification exists:
the loop's completion decision is the executed plan's own flag, and no
screen state enters the decision. -/
theorem search_query_extraction_no_verification :
    extractSearchTerm "search for pizza" = some "pizza" ∧
      extractSearchTerm "Search about the weather in Paris" = some "weather in paris" ∧
      extractSearchTerm "open settings" = none ∧
      ∀ (env : ℕ → Option Action) (a : Action), env 0 = some a →
        a.is_task_complete = true →
        (run_task env).retval = a.analysis.getD "Task completed" ∧
          (run_task env).iterations = 1 := by
  refine ⟨rfl, rfl, rfl, fun env a h0 hc => ?_⟩
  rw [runTask_first_complete env a h0 hc]
  exact ⟨rfl, rfl⟩

/-- Witness for C6. -/
theorem search_query_extraction_no_verification_witness :
    (run_task (fun _ => some (mkDone (some "shown")))).retval = "shown" ∧
      (run_task (fun _ => some (mkDone (some "shown")))).iterations = 1 :=
  search_query_extraction_no_verification.2.2.2 (fun _ => some (mkDone (some "shown")))
    (mkDone (some "shown")) rfl rfl

/-- C6 counterexample: for the search task "search for pizza" (query
"pizza"), a plan with `is_task_complete = true` completes the run at once;
the loop takes no screen state as input, so no absence of the query from any
screen text could force the flag to false. -/
theorem search_verification_absent_cex :
    extractSearchTerm "search for pizza" = some "pizza" ∧
      (run_task (fun _ => some (mkDone (some "Search results shown")))).retval =
        "Search results shown" ∧
      (run_task (fun _ => some (mkDone (some "Search results shown")))).iterations = 1 := by
  exact ⟨rfl, rfl, rfl⟩

/-! ### Claim C7: numeric normalisation -/

/-- C7 (amended): unparseable or missing coordinates default to 50 (screen
center, and a failure on either coordinate resets both); unparseable or
missing wait durations default to 2 seconds.  Parseable values are kept
verbatim — there is no clamping to [0, 100]. -/
theorem normalize_defaults (yr : RawVal) (q : ℚ) :
    normalizeTap .missing .missing = (50, 50) ∧
      normalizeTap .unparseable yr = (50, 50) ∧
      normalizeTap (.parseable q) .unparseable = (50, 50) ∧
      normalizeTap .missing (.parseable q) = (50, q) ∧
      normalizeTap (.parseable q) .missing = (q, 50) ∧
      normalizeWait .unparseable = 2 ∧
      normalizeWait .missing = 2 ∧
      normalizeWait (.parseable q) = q := by
  refine ⟨rfl, ?_, rfl, rfl, rfl, rfl, rfl, rfl⟩
  cases yr <;> rfl

/-- C7 counterexample: the parseable raw value 150 survives normalisation
unchanged, so a `tap` plan can leave normalisation with `x_percent` outside
[0, 100]. -/
theorem normalize_no_clamp_cex :
    normalizeTap (.parseable 150) (.parseable 50) = (150, 50) ∧ ¬ ((150 : ℚ) ≤ 100) := by
  exact ⟨rfl, by norm_num⟩

/-! ### Claim C8: tap-key rounding -/

/-- Dividing the distance bound by 5 brings a coordinate within `pyRound`'s
tie-free zone around `m`. -/
theorem pyRound_div5 (m : ℤ) (x : ℚ) (h : |x - 5 * m| ≤ 2) : pyRound (x / 5) = m := by
  apply pyRound_eq_of_close
  have e : x / 5 - m = (x - 5 * m) / 5 := by ring
  rw [e, abs_div, abs_of_pos (show (0:ℚ) < 5 by norm_num)]
  linarith

/-- C8 (amended): two `tap` plans whose raw x coordinates lie within
distance 2 of the same multiple-of-5 boundary `5 * mx` (and likewise y
within distance 2 of `5 * my`) receive the same repetition key.  The
original interval `[k, k + 4]` is too wide: its upper half rounds to the
next boundary. -/
theorem tapKey_same_within_two (mx my : ℤ) (a b : Action)
    (ha : a.kind = "tap") (hb : b.kind = "tap")
    (hax : |a.x_percent - 5 * mx| ≤ 2) (hbx : |b.x_percent - 5 * mx| ≤ 2)
    (hay : |a.y_percent - 5 * my| ≤ 2) (hby : |b.y_percent - 5 * my| ≤ 2) :
    getActionKey a = getActionKey b := by
  simp only [getActionKey, ha, hb, if_pos]
  rw [pyRound_div5 mx _ hax, pyRound_div5 mx _ hbx,
    pyRound_div5 my _ hay, pyRound_div5 my _ hby]

/-- Witness for C8: taps at (10, 10) and (12, 11) share the key of the
boundary (10, 10). -/
theorem tapKey_same_within_two_witness :
    getActionKey (mkTap 10 10 false none) = getActionKey (mkTap 12 11 false none) :=
  tapKey_same_within_two 2 2 (mkTap 10 10 false none) (mkTap 12 11 false none)
    rfl rfl (by norm_num [mkTap]) (by norm_num [mkTap]) (by norm_num [mkTap])
    (by norm_num [mkTap])

/-- C8 counterexample: with the boundary k = 10 = 5·2, the raw x
coordinates 10 and 13 both lie in [k, k + 4], yet they are assigned the
different keys `tap_10_10` and `tap_15_10` — `round` maps 13/5 up to 3. -/
theorem tapKey_interval_cex :
    ((10:ℚ) = 5 * 2) ∧
      ((10:ℚ) ≤ 10 ∧ (10:ℚ) ≤ 10 + 4) ∧ ((10:ℚ) ≤ 13 ∧ (13:ℚ) ≤ 10 + 4) ∧
      getActionKey (mkTap 10 10 false none) ≠ getActionKey (mkTap 13 10 false none) := by
  refine ⟨by norm_num, ⟨le_refl _, by norm_num⟩, ⟨by norm_num, by norm_num⟩, ?_⟩
  have h1 : getActionKey (mkTap 10 10 false none) = "tap_10_10" := by
    simp only [getActionKey, mkTap, if_pos]
    rw [pyRound_div5 2 10 (by norm_num)]
    rfl
  have h2 : getActionKey (mkTap 13 10 false none) = "tap_15_10" := by
    simp only [getActionKey, mkTap, if_pos]
    rw [pyRound_div5 3 13 (by norm_num), pyRound_div5 2 10 (by norm_num)]
    rfl
  rw [h1, h2]
  decide

/-! ### Claim C9: capture-failure handling -/

/-- One unfolding of the vision loop body. -/
theorem visionAux_step (env : ℕ → VisionStep) (fuel steps errs : ℕ)
    (acc : List String) :
    visionAux env (fuel + 1) steps errs acc =
      (if steps < 15 then
        match env steps with
        | .captureFail =>
          let acc' := acc ++ ["Failed to take screenshot"]
          if errs + 1 ≥ 3 then (steps + 1, acc' ++ [abortMsg])
          else visionAux env fuel (steps + 1) (errs + 1) acc'
        | .analyzeFail =>
          let acc' := acc ++ ["Failed to analyze screenshot"]
          if errs + 1 ≥ 3 then (steps + 1, acc' ++ [abortMsg])
          else visionAux env fuel (steps + 1) (errs + 1) acc'
        | .act complete msg =>
          let acc' := acc ++ [msg]
          if complete then (steps + 1, acc')
          else visionAux env fuel (steps + 1) 0 acc'
      else (steps, acc)) := rfl

/-- One unfolding of the vision loop on a non-aborting capture failure. -/
theorem visionAux_fail_cont (env : ℕ → VisionStep) (fuel steps errs : ℕ)
    (acc : List String) (hs : steps < 15) (henv : env steps = .captureFail)
    (he : ¬ errs + 1 ≥ 3) :
    visionAux env (fuel + 1) steps errs acc =
      visionAux env fuel (steps + 1) (errs + 1) (acc ++ ["Failed to take screenshot"]) := by
  rw [visionAux_step, if_pos hs, henv]
  simp only [if_neg he]

/-- One unfolding of the vision loop on the aborting capture failure. -/
theorem visionAux_fail_abort (env : ℕ → VisionStep) (fuel steps errs : ℕ)
    (acc : List String) (hs : steps < 15) (henv : env steps = .captureFail)
    (he : errs + 1 ≥ 3) :
    visionAux env (fuel + 1) steps errs acc =
      (steps + 1, acc ++ ["Failed to take screenshot"] ++ [abortMsg]) := by
  rw [visionAux_step, if_pos hs, henv]
  simp only [if_pos he]

/-- One unfolding of the vision loop on a successful step. -/
theorem visionAux_act (env : ℕ → VisionStep) (fuel steps errs : ℕ)
    (acc : List String) (c : Bool) (m : String) (hs : steps < 15)
    (henv : env steps = .act c m) :
    visionAux env (fuel + 1) steps errs acc =
      if c then (steps + 1, acc ++ [m])
      else visionAux env fuel (steps + 1) 0 (acc ++ [m]) := by
  rw [visionAux_step, if_pos hs, henv]

/-- C9 (amended): in `run_vision_guided_stage` a capture failure is
recovered locally — the loop continues, and only three consecutive failures
abort the stage with the abort entry; in `run_task` of `android_ai_agent.py`
however the very first capture failure terminates the run at once with
"Failed to capture screen". -/
theorem capture_failure_policies (venv : ℕ → VisionStep) (env : ℕ → Option Action) :
    (venv 0 = .captureFail → venv 1 = .captureFail → venv 2 = .captureFail →
      run_vision_guided_stage venv =
        (3, ["Failed to take screenshot", "Failed to take screenshot",
             "Failed to take screenshot", abortMsg])) ∧
    (∀ m : String, venv 0 = .captureFail → venv 1 = .act true m →
      run_vision_guided_stage venv = (2, ["Failed to take screenshot", m])) ∧
    (env 0 = none →
      run_task env =
        { trace := [], retval := "Failed to capture screen", iterations := 0 }) := by
  refine ⟨fun h0 h1 h2 => ?_, fun m h0 h1 => ?_, fun h0 => ?_⟩
  · have c1 : visionAux venv 15 0 0 [] =
        visionAux venv 14 1 1 ["Failed to take screenshot"] :=
      visionAux_fail_cont venv 14 0 0 [] (by decide) h0 (by decide)
    have c2 : visionAux venv 14 1 1 ["Failed to take screenshot"] =
        visionAux venv 13 2 2
          ["Failed to take screenshot", "Failed to take screenshot"] :=
      visionAux_fail_cont venv 13 1 1 ["Failed to take screenshot"] (by decide) h1
        (by decide)
    have c3 : visionAux venv 13 2 2
          ["Failed to take screenshot", "Failed to take screenshot"] =
        (3, ["Failed to take screenshot", "Failed to take screenshot",
             "Failed to take screenshot", abortMsg]) :=
      visionAux_fail_abort venv 12 2 2
        ["Failed to take screenshot", "Failed to take screenshot"] (by decide) h2
        (by decide)
    unfold run_vision_guided_stage
    simp only [c1, c2, c3]
    simp
  · have c1 : visionAux venv 15 0 0 [] =
        visionAux venv 14 1 1 ["Failed to take screenshot"] :=
      visionAux_fail_cont venv 14 0 0 [] (by decide) h0 (by decide)
    have c2 : visionAux venv 14 1 1 ["Failed to take screenshot"] =
        (2, ["Failed to take screenshot", m]) := by
      rw [visionAux_act venv 13 1 1 ["Failed to take screenshot"] true m (by decide) h1]
      simp
    unfold run_vision_guided_stage
    simp only [c1, c2]
    simp
  · unfold run_task
    rw [show (maxSteps : ℕ) = 19 + 1 from rfl, runLoopAux_step]
    rw [if_pos (by exact ⟨by decide, rfl⟩)]
    simp [h0]

/-- Witness for C9. -/
theorem capture_failure_policies_witness :
    run_vision_guided_stage (fun _ => .captureFail) =
        (3, ["Failed to take screenshot", "Failed to take screenshot",
             "Failed to take screenshot", abortMsg]) ∧
      run_task (fun _ => none) =
        { trace := [], retval := "Failed to capture screen", iterations := 0 } :=
  ⟨(capture_failure_policies (fun _ => .captureFail) (fun _ => none)).1 rfl rfl rfl,
   (capture_failure_policies (fun _ => .captureFail) (fun _ => none)).2.2 rfl⟩

/-- C9 counterexample: in `run_task` the capture fails on iteration 1 only —
all later captures would succeed — yet the run terminates immediately with
"Failed to capture screen" after zero completed iterations, refuting
"recovered locally and the loop continues … aborts only after 3 consecutive
failures". -/
theorem single_capture_failure_aborts_cex :
    run_task (fun n => if n = 0 then none else some (mkScroll "down" false none)) =
      { trace := [], retval := "Failed to capture screen", iterations := 0 } := by
  rfl

/-! ### Claim C10: the automatic enter/search tap after typing -/

/-- The test `List.isPrefixOf` computes list-prefix decomposition. -/
theorem isPrefixOf_iff_exists (l₁ l₂ : List Char) :
    l₁.isPrefixOf l₂ = true ↔ ∃ t, l₁ ++ t = l₂ := by
  induction l₁ generalizing l₂ with
  | nil => simp [List.isPrefixOf]
  | cons c cs ih =>
    cases l₂ with
    | nil => simp [List.isPrefixOf]
    | cons d ds =>
      simp only [List.isPrefixOf, Bool.and_eq_true, beq_iff_eq, ih, List.cons_append,
        List.cons.injEq]
      constructor
      · rintro ⟨rfl, t, rfl⟩
        exact ⟨t, rfl, rfl⟩
      · rintro ⟨t, rfl, rfl⟩
        exact ⟨rfl, t, rfl⟩

/-- The test `listHasInfix` computes Python's substring containment. -/
theorem listHasInfix_iff (needle l : List Char) :
    listHasInfix needle l = true ↔ ∃ pre post, l = pre ++ needle ++ post := by
  induction l with
  | nil =>
    simp only [listHasInfix, List.isEmpty_iff]
    constructor
    · rintro rfl
      exact ⟨[], [], rfl⟩
    · rintro ⟨pre, post, h⟩
      rcases List.append_eq_nil.mp h.symm with ⟨h1, -⟩
      exact (List.append_eq_nil.mp h1).2
  | cons c rest ih =>
    simp only [listHasInfix, Bool.or_eq_true, isPrefixOf_iff_exists, ih]
    constructor
    · rintro (⟨t, ht⟩ | ⟨pre, post, hp⟩)
      · exact ⟨[], t, by simp [ht]⟩
      · exact ⟨c :: pre, post, by simp [hp]⟩
    · rintro ⟨pre, post, hp⟩
      cases pre with
      | nil =>
        left
        exact ⟨post, by simpa using hp.symm⟩
      | cons p ps =>
        right
        rcases List.cons_eq_cons.mp (by simpa using hp) with ⟨-, h⟩
        exact ⟨ps, post, by simpa [List.append_assoc] using h⟩

/-- C10: after sending the text, the executor issues the extra tap at
`int(0.9 * width), int(0.9 * height)` exactly when the lowercased text
contains one of the substrings "search", "find", "look", or splits into at
most three whitespace-separated words; otherwise the typed text is the only
device command. -/
theorem executeType_search_tap (w h : ℕ) (text : String) :
    (DeviceCmd.tap (9 * w / 10) (9 * h / 10) ∈ executeType w h text ↔
      ((∃ pre post, (pyLower text).data = pre ++ "search".data ++ post) ∨
        (∃ pre post, (pyLower text).data = pre ++ "find".data ++ post) ∨
        (∃ pre post, (pyLower text).data = pre ++ "look".data ++ post) ∨
        (pyWords text).length ≤ 3)) ∧
    executeType w h text =
      DeviceCmd.inputText ⟨replaceSpaces text.data⟩ ::
        (if looksLikeSearch text then [DeviceCmd.tap (9 * w / 10) (9 * h / 10)] else []) := by
  constructor
  · have hmem : DeviceCmd.tap (9 * w / 10) (9 * h / 10) ∈ executeType w h text ↔
        looksLikeSearch text = true := by
      unfold executeType
      cases hls : looksLikeSearch text <;> simp [hls]
    rw [hmem]
    unfold looksLikeSearch strContains
    simp [listHasInfix_iff, or_assoc]
  · unfold executeType
    cases hls : looksLikeSearch text <;> simp [hls]

end AndroidAgent
